import Mathlib

/-!
Shallow embedding of `src/app.py` (Amazon book-review extractor) and proofs
of its specified properties.

Python strings are modelled as `List Char` (with `String` wrappers at the
boundaries); the whitespace class of Python's `str.strip` / `re`'s `\s`
is modelled over the ASCII whitespace characters.  Selenium elements that
may be absent (a failing `find_element` raises `NoSuchElementException`)
are modelled as `Option` fields; other runtime exceptions are injected
through explicit environment records, since the Python code catches them
with bare `except` clauses.
-/

namespace App

/-- The ASCII whitespace class used by Python's `str.strip()` and the
regex class `\s` on ASCII text. -/
def isPySpace (c : Char) : Bool :=
  c = ' ' || c = '\t' || c = '\n' || c = '\r' || c = '\x0b' || c = '\x0c'

/-- `str.strip()`: drop leading and trailing whitespace. -/
def pyStrip (l : List Char) : List Char :=
  ((l.dropWhile isPySpace).reverse.dropWhile isPySpace).reverse

/-- `re.sub(r'\s+', ' ', ·)`: replace every maximal run of whitespace
characters by a single space. -/
def collapseWS : List Char → List Char
  | [] => []
  | [c] => if isPySpace c then [' '] else [c]
  | c :: d :: cs =>
    if isPySpace c && isPySpace d then collapseWS (d :: cs)
    else (if isPySpace c then ' ' else c) :: collapseWS (d :: cs)

/-- `clean_text` from `src/app.py`:
`re.sub(r'\s+', ' ', text.strip())`. -/
def cleanList (l : List Char) : List Char :=
  collapseWS (pyStrip l)

/-- `clean_text` on `String`s. -/
def clean_text (s : String) : String :=
  ⟨cleanList s.data⟩

/-- A list is in normal form when every whitespace character in it is a
plain space and no two adjacent characters are both whitespace. -/
def Normed (l : List Char) : Prop :=
  (∀ c ∈ l, isPySpace c → c = ' ') ∧
    l.Chain' (fun a b => ¬(isPySpace a = true ∧ isPySpace b = true))

theorem collapseWS_single (c : Char) :
    collapseWS [c] = if isPySpace c then [' '] else [c] := rfl

theorem collapseWS_cons_cons (c d : Char) (cs : List Char) :
    collapseWS (c :: d :: cs) =
      if isPySpace c && isPySpace d then collapseWS (d :: cs)
      else (if isPySpace c then ' ' else c) :: collapseWS (d :: cs) := rfl

theorem collapseWS_head (d : Char) (ds : List Char) :
    (collapseWS (d :: ds)).head? = some (if isPySpace d then ' ' else d) := by
  induction ds generalizing d with
  | nil => rw [collapseWS_single]; split <;> rfl
  | cons e es ih =>
    rw [collapseWS_cons_cons]
    by_cases hd : isPySpace d = true
    · by_cases he : isPySpace e = true
      · rw [if_pos (by simp [hd, he]), ih, if_pos he, if_pos hd]
      · rw [if_neg (by simp [he]), if_pos hd]; rfl
    · rw [if_neg (by simp [hd]), if_neg hd]; rfl

theorem collapseWS_nil_iff (l : List Char) : collapseWS l = [] ↔ l = [] := by
  constructor
  · intro h
    match l with
    | [] => rfl
    | d :: ds =>
      have := collapseWS_head d ds
      rw [h] at this
      simp at this
  · intro h; subst h; rfl

theorem collapseWS_normed (l : List Char) : Normed (collapseWS l) := by
  induction l with
  | nil => refine ⟨?_, ?_⟩ <;> simp [collapseWS]
  | cons c cs ih =>
    match cs with
    | [] =>
      rw [collapseWS_single]
      constructor
      · intro x hx hsp
        split at hx <;> simp at hx <;> subst hx
        · rfl
        · next hns => exact absurd hsp hns
      · split <;> simp
    | d :: ds =>
      rw [collapseWS_cons_cons]
      by_cases hcd : (isPySpace c && isPySpace d) = true
      · rw [if_pos hcd]; exact ih
      · rw [if_neg hcd]
        refine ⟨?_, ?_⟩
        · intro x hx hsp
          rcases List.mem_cons.mp hx with h | h
          · subst h
            split
            · rfl
            · next hns =>
              rw [if_neg hns] at hsp
              exact absurd hsp hns
          · exact ih.1 x h hsp
        · refine List.Chain'.cons' ih.2 ?_
          intro y hy
          rw [collapseWS_head] at hy
          simp only [Option.mem_def, Option.some.injEq] at hy
          subst hy
          intro ⟨h1, h2⟩
          by_cases hc : isPySpace c = true
          · have hd : isPySpace d = false := by
              cases hdd : isPySpace d
              · rfl
              · exact absurd (by simp [hc, hdd]) hcd
            rw [if_neg (by simp [hd])] at h2
            exact absurd h2 (by simp [hd])
          · rw [if_neg hc] at h1
            exact hc h1

theorem collapseWS_of_normed (l : List Char) (h : Normed l) :
    collapseWS l = l := by
  induction l with
  | nil => rfl
  | cons c cs ih =>
    match cs with
    | [] =>
      rw [collapseWS_single]
      split
      · next hsp => rw [h.1 c (by simp) hsp]
      · rfl
    | d :: ds =>
      have hadj : ¬(isPySpace c = true ∧ isPySpace d = true) :=
        (List.chain'_cons.mp h.2).1
      have htail : Normed (d :: ds) :=
        ⟨fun x hx => h.1 x (by simp [hx]), (List.chain'_cons.mp h.2).2⟩
      rw [collapseWS_cons_cons, if_neg (by simpa using hadj), ih htail]
      split
      · next hsp => rw [h.1 c (by simp) hsp]
      · rfl

theorem collapseWS_getLast (l : List Char) (c : Char)
    (h : l.getLast? = some c) (hc : isPySpace c = false) :
    (collapseWS l).getLast? = some c := by
  induction l with
  | nil => simp at h
  | cons x cs ih =>
    match cs with
    | [] =>
      simp only [List.getLast?_singleton, Option.some.injEq] at h
      subst h
      rw [collapseWS_single, if_neg (by simp [hc])]
      rfl
    | y :: ys =>
      rw [List.getLast?_cons_cons] at h
      rw [collapseWS_cons_cons]
      by_cases hxy : (isPySpace x && isPySpace y) = true
      · rw [if_pos hxy]; exact ih h
      · rw [if_neg hxy]
        have hne : collapseWS (y :: ys) ≠ [] := by
          intro hh; exact absurd ((collapseWS_nil_iff _).mp hh) (by simp)
        match hmat : collapseWS (y :: ys), hne with
        | z :: zs, _ =>
          rw [List.getLast?_cons_cons, ← hmat]
          exact ih h

theorem dropWhile_eq_self_of_head (p : Char → Bool) (l : List Char)
    (h : ∀ c, l.head? = some c → p c = false) : l.dropWhile p = l := by
  match l with
  | [] => rfl
  | c :: cs => rw [List.dropWhile_cons, if_neg (by simp [h c rfl])]

theorem head_dropWhile_not (p : Char → Bool) (l : List Char) (c : Char)
    (h : (l.dropWhile p).head? = some c) : p c = false := by
  induction l with
  | nil => simp at h
  | cons x xs ih =>
    rw [List.dropWhile_cons] at h
    split at h
    · exact ih h
    · next hp =>
      simp only [List.head?_cons, Option.some.injEq] at h
      subst h
      exact Bool.not_eq_true _ |>.mp hp

theorem dropWhile_getLast (p : Char → Bool) (l : List Char) (c : Char)
    (h : (l.dropWhile p).getLast? = some c) : l.getLast? = some c := by
  induction l with
  | nil => simp at h
  | cons x xs ih =>
    rw [List.dropWhile_cons] at h
    split at h
    · have hxs := ih h
      cases xs with
      | nil => simp at hxs
      | cons y ys => rw [List.getLast?_cons_cons]; exact hxs
    · exact h

theorem pyStrip_head (l : List Char) (c : Char)
    (h : (pyStrip l).head? = some c) : isPySpace c = false := by
  unfold pyStrip at h
  rw [List.head?_reverse] at h
  have h2 := dropWhile_getLast isPySpace _ c h
  rw [List.getLast?_reverse] at h2
  exact head_dropWhile_not isPySpace l c h2

theorem pyStrip_getLast (l : List Char) (c : Char)
    (h : (pyStrip l).getLast? = some c) : isPySpace c = false := by
  unfold pyStrip at h
  rw [List.getLast?_reverse] at h
  exact head_dropWhile_not isPySpace _ c h

theorem pyStrip_of_ends (l : List Char)
    (h1 : ∀ c, l.head? = some c → isPySpace c = false)
    (h2 : ∀ c, l.getLast? = some c → isPySpace c = false) :
    pyStrip l = l := by
  unfold pyStrip
  rw [dropWhile_eq_self_of_head isPySpace l h1]
  rw [dropWhile_eq_self_of_head isPySpace l.reverse
    (fun c hc => h2 c (by rwa [List.head?_reverse] at hc))]
  exact List.reverse_reverse l

theorem cleanList_head (l : List Char) (c : Char)
    (h : (cleanList l).head? = some c) : isPySpace c = false := by
  unfold cleanList at h
  match hm : pyStrip l with
  | [] => rw [hm] at h; simp [collapseWS] at h
  | d :: ds =>
    have hd : isPySpace d = false := pyStrip_head l d (by rw [hm]; rfl)
    rw [hm, collapseWS_head, if_neg (by simp [hd])] at h
    simp only [Option.some.injEq] at h
    subst h
    exact hd

theorem cleanList_getLast (l : List Char) (c : Char)
    (h : (cleanList l).getLast? = some c) : isPySpace c = false := by
  unfold cleanList at h
  match hm : (pyStrip l).getLast? with
  | none =>
    rw [List.getLast?_eq_none_iff] at hm
    rw [hm] at h
    simp [collapseWS] at h
  | some d =>
    have hd : isPySpace d = false := pyStrip_getLast l d hm
    rw [collapseWS_getLast (pyStrip l) d hm hd] at h
    simp only [Option.some.injEq] at h
    subst h
    exact hd

theorem cleanList_idem (l : List Char) : cleanList (cleanList l) = cleanList l := by
  have hstrip : pyStrip (cleanList l) = cleanList l :=
    pyStrip_of_ends _ (cleanList_head l) (cleanList_getLast l)
  have h1 : cleanList (cleanList l) = collapseWS (cleanList l) := by
    unfold cleanList
    rw [show pyStrip (collapseWS (pyStrip l)) = collapseWS (pyStrip l) from hstrip]
  rw [h1]
  exact collapseWS_of_normed (cleanList l) (collapseWS_normed (pyStrip l))

/-- Python `str.split()` (no separator argument): split on runs of
whitespace, discarding empty pieces.  `acc` carries the current token in
reverse. -/
def pySplitAux : List Char → List Char → List (List Char)
  | [], acc => if acc.isEmpty then [] else [acc.reverse]
  | c :: cs, acc =>
    if isPySpace c then
      if acc.isEmpty then pySplitAux cs [] else acc.reverse :: pySplitAux cs []
    else pySplitAux cs (c :: acc)

/-- Python `str.split()`. -/
def pySplit (l : List Char) : List (List Char) := pySplitAux l []

theorem pySplitAux_tokens (l : List Char) (acc : List Char)
    (hacc : ∀ c ∈ acc, isPySpace c = false) :
    ∀ t ∈ pySplitAux l acc, ∀ c ∈ t, isPySpace c = false := by
  induction l generalizing acc with
  | nil =>
    intro t ht c hc
    simp only [pySplitAux] at ht
    split at ht
    · simp at ht
    · simp only [List.mem_singleton] at ht
      subst ht
      exact hacc c (List.mem_reverse.mp hc)
  | cons x xs ih =>
    intro t ht c hc
    simp only [pySplitAux] at ht
    by_cases hx : isPySpace x = true
    · rw [if_pos hx] at ht
      split at ht
      · exact ih [] (by simp) t ht c hc
      · rcases List.mem_cons.mp ht with h | h
        · subst h
          exact hacc c (List.mem_reverse.mp hc)
        · exact ih [] (by simp) t h c hc
    · rw [if_neg hx] at ht
      refine ih (x :: acc) ?_ t ht c hc
      intro d hd
      rcases List.mem_cons.mp hd with h | h
      · subst h; exact Bool.not_eq_true _ |>.mp hx
      · exact hacc d h

theorem pySplit_tokens (l : List Char) :
    ∀ t ∈ pySplit l, ∀ c ∈ t, isPySpace c = false :=
  pySplitAux_tokens l [] (by simp)

theorem chain'_of_spacefree (l : List Char)
    (h : ∀ c ∈ l, isPySpace c = false) :
    l.Chain' (fun a b => ¬(isPySpace a = true ∧ isPySpace b = true)) := by
  induction l with
  | nil => simp
  | cons c cs ih =>
    refine List.Chain'.cons' (ih (fun d hd => h d (by simp [hd]))) ?_
    intro y _
    intro ⟨h1, _⟩
    exact absurd h1 (by simp [h c (by simp)])

theorem cleanList_of_spacefree (l : List Char)
    (h : ∀ c ∈ l, isPySpace c = false) : cleanList l = l := by
  have hends : ∀ c, l.head? = some c → isPySpace c = false := by
    intro c hc
    exact h c (List.mem_of_mem_head? hc)
  have hlast : ∀ c, l.getLast? = some c → isPySpace c = false := by
    intro c hc
    exact h c (List.mem_of_mem_getLast? hc)
  unfold cleanList
  rw [pyStrip_of_ends l hends hlast]
  refine collapseWS_of_normed l ⟨?_, chain'_of_spacefree l h⟩
  intro c hc hsp
  exact absurd hsp (by simp [h c hc])

/-- The rating normalization from `scrape_reviews`:
`clean_text(rating.text.split()[0])`, with the `IndexError` raised by
`[0]` on an all-whitespace string caught by the enclosing `except`,
which yields the default `"N/A"`. -/
def ratingFromText (t : List Char) : List Char :=
  match pySplit t with
  | [] => "N/A".data
  | tok :: _ => cleanList tok

/-- `ratingFromText` on `String`s. -/
def ratingFromString (t : String) : String :=
  ⟨ratingFromText t.data⟩

/-- Python `str.strip()` on `String`s (used by `analyze_sentiment` for
`sentiment.strip()` and by `get_chrome_version` for
`result.stdout.strip()`). -/
def pyStripStr (s : String) : String :=
  ⟨pyStrip s.data⟩

/-- One review fragment (`element` in the extraction loop): each field is
the `.text` of the element located by the corresponding selector pair,
`none` when `find_element` raises (`NoSuchElementException`). -/
structure Fragment where
  authorField : Option String
  bodyField : Option String
  ratingField : Option String
  dateField : Option String
deriving DecidableEq

/-- One emitted review record (the dict appended to `reviews`). -/
structure Record where
  Username : String
  Comment : String
  Rating : String
  Date : String
  ASIN : String
deriving DecidableEq

/-- The `username` try/except block: on success the element is a truthy
WebElement, so `clean_text(username.text)` is taken; any exception gives
`"Anonymous"`. -/
def extractUsername (f : Fragment) : String :=
  match f.authorField with
  | none => "Anonymous"
  | some t => clean_text t

/-- The `comment_text` try/except block: any exception gives `""`. -/
def extractComment (f : Fragment) : String :=
  match f.bodyField with
  | none => ""
  | some t => clean_text t

/-- The `rating` try/except block:
`clean_text(rating.text.split()[0])`, any exception gives `"N/A"`. -/
def extractRating (f : Fragment) : String :=
  match f.ratingField with
  | none => "N/A"
  | some t => ratingFromString t

/-- The `date` try/except block: any exception gives `"N/A"`. -/
def extractDate (f : Fragment) : String :=
  match f.dateField with
  | none => "N/A"
  | some t => clean_text t

/-- One iteration of the extraction loop: the four per-field blocks run
independently, then `if comment_text:` gates the append. -/
def extractRecord (asin : String) (f : Fragment) : Option Record :=
  let username := extractUsername f
  let comment_text := extractComment f
  let rating := extractRating f
  let date := extractDate f
  if comment_text = "" then none
  else some ⟨username, comment_text, rating, date, asin⟩

/-- The whole extraction loop over the discovered elements, in document
order. -/
def scrape_extract (asin : String) (frags : List Fragment) : List Record :=
  frags.filterMap (extractRecord asin)

/-- The fetched document as the two selector tiers see it:
`primaryFrags` are the matches of `div[data-hook="review"]`,
`fallbackFrags` the matches of `div.a-section.review, div.review`. -/
structure Page where
  hasCaptcha : Bool
  title : String
  primaryFrags : List Fragment
  fallbackFrags : List Fragment
deriving DecidableEq

/-- Fragment discovery: `review_elements = primary; if not review_elements:
review_elements = fallback`. -/
def find_review_elements (p : Page) : List Fragment :=
  if p.primaryFrags.isEmpty then p.fallbackFrags else p.primaryFrags

/-- One Streamlit diagnostic call, tagged by which `st.*` function was
used. -/
inductive Msg
  | write (s : String)
  | warn (s : String)
  | error (s : String)
  | success (s : String)
deriving DecidableEq

def chromeMissingStr : String :=
  "Google Chrome is not installed. Please install it using: sudo apt-get install -y google-chrome-stable"

def initializingStr : String := "Initializing ChromeDriver..."

def driverVersionStr (v : String) : String := "ChromeDriver version: " ++ v

def scrapingUrlStr (asin : String) : String :=
  "Scraping URL: https://www.amazon.com/product-reviews/" ++ asin

def waitWarnStr : String :=
  "Reviews not loaded within 15 seconds. Checking for CAPTCHA or no reviews."

def captchaStr : String :=
  "CAPTCHA detected. Amazon is blocking the request. Try manually visiting the URL or use a proxy."

def titleStr (t : String) : String :=
  "Page title: " ++ (if t = "" then "No title found" else t)

def primaryEmptyStr : String :=
  "No review elements found with 'div[data-hook=\"review\"]'. Trying fallback selectors."

def noValidStr : String :=
  "No valid reviews extracted. Possible reasons: no reviews exist or page requires further interaction."

def foundStr (n : Nat) : String := "Found " ++ toString n ++ " reviews."

def scrapeErrorStr (e : String) : String := "Error during scraping: " ++ e

def chromeVersionStr (v : String) : String := "Installed Chrome version: " ++ v

def chromeCheckErrStr (e : String) : String :=
  "Error checking Chrome version: " ++ e ++ ". Ensure Google Chrome is installed."

/-- `get_chrome_version`: the subprocess either raises (`.error e`, caught
by the function's own try/except, returning `None`) or yields stdout
(`.ok out`, stripped and logged).  Result: the returned value and the
diagnostics it wrote. -/
def get_chrome_version (r : Except String String) : Option String × List Msg :=
  match r with
  | .error e => (none, [.error (chromeCheckErrStr e)])
  | .ok out => (some (pyStripStr out), [.write (chromeVersionStr (pyStripStr out))])

/-- The point inside `scrape_reviews`'s try block at which an injected
exception is raised: during ChromeDriver initialization (before `driver`
is assigned), while reading capabilities, during `driver.get`, during a
`find_elements` guard check, during fragment discovery, or during the
extraction loop. -/
inductive FailStep
  | init
  | caps
  | nav
  | guard
  | find
  | extract
deriving DecidableEq

instance instDecEqExcept {α β : Type} [DecidableEq α] [DecidableEq β] :
    DecidableEq (Except α β) := fun a b =>
  match a, b with
  | .error x, .error y =>
    decidable_of_iff (x = y) ⟨fun h => by rw [h], fun h => by cases h; rfl⟩
  | .error _, .ok _ => .isFalse (by intro h; cases h)
  | .ok _, .error _ => .isFalse (by intro h; cases h)
  | .ok x, .ok y =>
    decidable_of_iff (x = y) ⟨fun h => by rw [h], fun h => by cases h; rfl⟩

/-- The runtime environment of one `scrape_reviews` call: everything the
outside world decides. `failAt` is the first step of the try block at
which an exception is raised (`none` for a run with no exception);
`failText` is its `str(e)`. `waitFails` says the `WebDriverWait` raised
(timeout included), which the inner bare `except` turns into a warning. -/
structure ScrapeEnv where
  chromeResult : Except String String
  driverVersion : String
  failAt : Option FailStep
  failText : String
  waitFails : Bool
deriving DecidableEq

/-- What one `scrape_reviews` call did: its return value, the diagnostics
written, whether a browser session was acquired (`driver` assigned), and
whether `driver.quit()` ran (the `finally` block with `driver` non-None). -/
structure ScrapeResult where
  records : List Record
  messages : List Msg
  driverAcquired : Bool
  driverQuit : Bool
deriving DecidableEq

/-- `scrape_reviews` from `src/app.py`, step by step.  Every exception
raised inside the try block after `driver` is assigned is caught by the
outer `except`, which writes the generic scraping error and returns `[]`;
the `finally` block then calls `driver.quit()`. -/
def scrape_reviews (asin : String) (env : ScrapeEnv) (p : Page) : ScrapeResult :=
  let cv := get_chrome_version env.chromeResult
  -- `if not chrome_version:` — None and the empty string are both falsy
  if cv.1 = none ∨ cv.1 = some "" then
    ⟨[], cv.2 ++ [.error chromeMissingStr], false, false⟩
  else
    let m1 := cv.2 ++ [.write initializingStr]
    if env.failAt = some .init then
      -- `webdriver.Chrome(...)` raised before `driver` was assigned
      ⟨[], m1 ++ [.error (scrapeErrorStr env.failText)], false, false⟩
    else if env.failAt = some .caps then
      ⟨[], m1 ++ [.error (scrapeErrorStr env.failText)], true, true⟩
    else
      let m2 := m1 ++ [.write (driverVersionStr env.driverVersion),
                       .write (scrapingUrlStr asin)]
      if env.failAt = some .nav then
        ⟨[], m2 ++ [.error (scrapeErrorStr env.failText)], true, true⟩
      else
        let m3 := m2 ++ (if env.waitFails then [.warn waitWarnStr] else [])
        if env.failAt = some .guard then
          ⟨[], m3 ++ [.error (scrapeErrorStr env.failText)], true, true⟩
        else if p.hasCaptcha then
          ⟨[], m3 ++ [.error captchaStr], true, true⟩
        else
          let m4 := m3 ++ [.write (titleStr p.title)]
          if env.failAt = some .find then
            ⟨[], m4 ++ [.error (scrapeErrorStr env.failText)], true, true⟩
          else
            let m5 := m4 ++
              (if p.primaryFrags.isEmpty then [.warn primaryEmptyStr] else [])
            if env.failAt = some .extract then
              ⟨[], m5 ++ [.error (scrapeErrorStr env.failText)], true, true⟩
            else
              let reviews := scrape_extract asin (find_review_elements p)
              let m6 := m5 ++
                (if reviews.isEmpty then [.warn noValidStr]
                 else [.success (foundStr reviews.length)])
              ⟨reviews, m6, true, true⟩

/-- The outcome of the Gemini HTTP call once `requests.post` returned:
the status code, and what `response.json()` plus the
`candidates/content/parts/text` lookup chain produced — `.ok t` when the
chain yielded the string `t` (the `.get` default `'Neutral'` included),
`.error ()` when `json()`, the chain, or `.strip()` raised. -/
structure ApiResponse where
  status : Nat
  chainText : Except Unit String
deriving DecidableEq

/-- The environment of one `analyze_sentiment` call: the secrets lookup
(`none` = `st.secrets` raises) and the network call (`none` =
`requests.post` raises). -/
structure SentimentEnv where
  apiKey : Option String
  response : Option ApiResponse
deriving DecidableEq

/-- `analyze_sentiment` from `src/app.py`: the whole body is one
try/except whose except branch warns and returns `"Neutral"`;
`raise_for_status` raises on a 4xx/5xx status. -/
def analyze_sentiment (env : SentimentEnv) (_comment : String) : String :=
  match env.apiKey with
  | none => "Neutral"
  | some _ =>
    match env.response with
    | none => "Neutral"
    | some resp =>
      if 400 ≤ resp.status then "Neutral"
      else
        match resp.chainText with
        | .error _ => "Neutral"
        | .ok sentiment => pyStripStr sentiment

/-- An internal failure of `analyze_sentiment`: missing credentials, a
transport exception, a non-success HTTP status, or a malformed
response. -/
def SentimentFailure (env : SentimentEnv) : Prop :=
  env.apiKey = none ∨ env.response = none ∨
    ∃ r, env.response = some r ∧ (400 ≤ r.status ∨ r.chainText = .error ())

/-- A record after the pipeline attached `review['Sentiment']`. -/
structure SentimentRecord where
  review : Record
  Sentiment : String
deriving DecidableEq

/-- The enrichment loop of the submit handler:
`for review in reviews: review['Sentiment'] = analyze_sentiment(...)`. -/
def add_sentiments (env : SentimentEnv) (reviews : List Record) :
    List SentimentRecord :=
  reviews.map (fun r => ⟨r, analyze_sentiment env r.Comment⟩)

/-- One character of the class `[A-Z0-9]`. -/
def isAsinChar (c : Char) : Bool :=
  ('A' ≤ c && c ≤ 'Z') || ('0' ≤ c && c ≤ '9')

/-- Python's `re.match(r'^[A-Z0-9]{10}$', s)` as a Boolean: ten characters
of the class, where `$` also matches just before one trailing newline. -/
def asin_pattern_match (s : String) : Bool :=
  let l := s.data
  (l.length = 10 && l.all isAsinChar) ||
    (l.length = 11 && (l.take 10).all isAsinChar && l.getLast? = some '\n')

/-- What the module-level submit handler observably did before any
scraping output: whether `scrape_reviews` was invoked (the only path to a
network call) and whether the validation error was shown. -/
structure SubmitResult where
  scrapeInvoked : Bool
  validationErrorShown : Bool
deriving DecidableEq

/-- The module-level submit handler, `if submit_button and asin:` followed
by the ASIN validation: an empty `asin` is falsy, so the whole block is
skipped; a non-empty `asin` failing the pattern shows the validation
error; only a matching `asin` reaches `scrape_reviews`. -/
def handle_submit (submitButton : Bool) (asin : String) : SubmitResult :=
  if submitButton && !(asin == "") then
    if !asin_pattern_match asin then ⟨false, true⟩
    else ⟨true, false⟩
  else ⟨false, false⟩

/-- No two adjacent characters are both whitespace. -/
def noDoubleWS : List Char → Bool
  | [] => true
  | [_] => true
  | a :: b :: t => !(isPySpace a && isPySpace b) && noDoubleWS (b :: t)

theorem noDoubleWS_of_chain (l : List Char)
    (h : l.Chain' (fun a b => ¬(isPySpace a = true ∧ isPySpace b = true))) :
    noDoubleWS l = true := by
  induction l with
  | nil => rfl
  | cons a t ih =>
    match t with
    | [] => rfl
    | b :: t' =>
      have h1 := (List.chain'_cons.mp h).1
      have h2 := (List.chain'_cons.mp h).2
      simp only [noDoubleWS, Bool.and_eq_true]
      refine ⟨?_, ih h2⟩
      cases ha : isPySpace a with
      | false => simp [ha]
      | true =>
        cases hb : isPySpace b with
        | false => simp [ha, hb]
        | true => exact absurd ⟨ha, hb⟩ h1

end App

/-- C10: `clean_text` is idempotent — `clean_text(clean_text(s)) =
clean_text(s)` for every string `s` — and its output never has leading or
trailing whitespace nor two consecutive whitespace characters. -/
theorem clean_text_idempotent : ∀ s : String,
    App.clean_text (App.clean_text s) = App.clean_text s ∧
    (App.clean_text s).data.head?.all (fun c => !App.isPySpace c) = true ∧
    (App.clean_text s).data.getLast?.all (fun c => !App.isPySpace c) = true ∧
    App.noDoubleWS (App.clean_text s).data = true := by
  intro s
  refine ⟨?_, ?_, ?_, ?_⟩
  · exact congrArg String.mk (App.cleanList_idem s.data)
  · cases hm : (App.clean_text s).data.head? with
    | none => rfl
    | some c =>
      have := App.cleanList_head s.data c hm
      simp [Option.all, this]
  · cases hm : (App.clean_text s).data.getLast? with
    | none => rfl
    | some c =>
      have := App.cleanList_getLast s.data c hm
      simp [Option.all, this]
  · exact App.noDoubleWS_of_chain _ (App.collapseWS_normed (App.pyStrip s.data)).2

/-- C7: when the rating text splits into at least one whitespace-delimited
token, the stored rating is exactly the first token; in particular
`"4.5 out of 5 stars"` normalizes to `"4.5"`. -/
theorem rating_first_token :
    (∀ (t tok : List Char) (toks : List (List Char)),
        App.pySplit t = tok :: toks → App.ratingFromText t = tok) ∧
    App.ratingFromString "4.5 out of 5 stars" = "4.5" := by
  constructor
  · intro t tok toks h
    unfold App.ratingFromText
    rw [h]
    exact App.cleanList_of_spacefree tok
      (fun c hc => App.pySplit_tokens t tok (by rw [h]; simp) c hc)
  · decide

/-- Witness for C7 at the concrete rating string of the spec. -/
theorem rating_first_token_witness :
    App.ratingFromText "4.5 out of 5 stars".data = "4.5".data :=
  rating_first_token.1 "4.5 out of 5 stars".data "4.5".data
    ["out".data, "of".data, "5".data, "stars".data] (by decide)

/-- C1: a fragment yields a record iff its normalized body text is
non-empty; every emitted record carries exactly the independently
extracted per-field values, an unresolvable author is `"Anonymous"`, an
unresolvable rating or date is `"N/A"`, and the number of emitted records
never exceeds the number of discovered fragments. -/
theorem extract_validity_gate : ∀ asin : String,
    (∀ f : App.Fragment,
      ((App.extractRecord asin f).isSome = true ↔ App.extractComment f ≠ "") ∧
      (∀ r, App.extractRecord asin f = some r →
        r.Username = App.extractUsername f ∧ r.Comment = App.extractComment f ∧
        r.Rating = App.extractRating f ∧ r.Date = App.extractDate f ∧
        r.ASIN = asin) ∧
      (f.authorField = none → App.extractUsername f = "Anonymous") ∧
      (f.ratingField = none → App.extractRating f = "N/A") ∧
      (f.dateField = none → App.extractDate f = "N/A")) ∧
    ∀ frags : List App.Fragment,
      (App.scrape_extract asin frags).length ≤ frags.length := by
  intro asin
  constructor
  · intro f
    refine ⟨?_, ?_, ?_, ?_, ?_⟩
    · unfold App.extractRecord
      by_cases h : App.extractComment f = "" <;> simp [h]
    · intro r hr
      have he : App.extractRecord asin f =
          if App.extractComment f = "" then none
          else some ⟨App.extractUsername f, App.extractComment f,
            App.extractRating f, App.extractDate f, asin⟩ := rfl
      rw [he] at hr
      split at hr
      · cases hr
      · cases hr
        exact ⟨rfl, rfl, rfl, rfl, rfl⟩
    · intro h; unfold App.extractUsername; rw [h]
    · intro h; unfold App.extractRating; rw [h]
    · intro h; unfold App.extractDate; rw [h]
  · intro frags
    exact List.length_filterMap_le _ _

/-- Witness for C1: a fragment with body text but no author field yields a
record whose author is `"Anonymous"`. -/
theorem extract_validity_gate_witness :
    (App.extractRecord "B0CW1LJXKN"
      ⟨none, some "  great   book ", none, none⟩).isSome = true ∧
    App.extractUsername ⟨none, some "  great   book ", none, none⟩ =
      "Anonymous" := by
  have h := (extract_validity_gate "B0CW1LJXKN").1
    ⟨none, some "  great   book ", none, none⟩
  exact ⟨h.1.mpr (by decide), h.2.2.1 rfl⟩

/-- C3: discovery uses the primary selector tier when it yields at least
one fragment and consults the fallback tier only when the primary tier is
empty; the fragments processed always come from exactly one tier. -/
theorem selector_tier_exclusivity : ∀ p : App.Page,
    (p.primaryFrags ≠ [] → App.find_review_elements p = p.primaryFrags) ∧
    (p.primaryFrags = [] → App.find_review_elements p = p.fallbackFrags) ∧
    (App.find_review_elements p = p.primaryFrags ∨
      App.find_review_elements p = p.fallbackFrags) := by
  intro p
  unfold App.find_review_elements
  by_cases h : p.primaryFrags.isEmpty
  · rw [if_pos h]
    exact ⟨fun hne => absurd (List.isEmpty_iff.mp h) hne, fun _ => rfl, .inr rfl⟩
  · rw [if_neg h]
    refine ⟨fun _ => rfl, fun he => ?_, .inl rfl⟩
    exact absurd (he ▸ List.isEmpty_nil) (by simpa using h)

/-- Witness for C3 at two concrete pages, one with a non-empty primary
tier and one with an empty primary tier. -/
theorem selector_tier_exclusivity_witness :
    App.find_review_elements
      ⟨false, "t", [⟨none, some "ok", none, none⟩], [⟨none, none, none, none⟩]⟩ =
      [⟨none, some "ok", none, none⟩] ∧
    App.find_review_elements
      ⟨false, "t", [], [⟨none, none, none, none⟩]⟩ =
      [⟨none, none, none, none⟩] := by
  constructor
  · exact (selector_tier_exclusivity
      ⟨false, "t", [⟨none, some "ok", none, none⟩],
        [⟨none, none, none, none⟩]⟩).1 (by decide)
  · exact (selector_tier_exclusivity
      ⟨false, "t", [], [⟨none, none, none, none⟩]⟩).2.1 rfl

/-- C9: on every exit path of `scrape_reviews`, once a browser session has
been acquired, `driver.quit()` runs before the function returns. -/
theorem driver_quit_on_every_exit :
    ∀ (asin : String) (env : App.ScrapeEnv) (p : App.Page),
    (App.scrape_reviews asin env p).driverAcquired = true →
    (App.scrape_reviews asin env p).driverQuit = true := by
  intro asin env p
  have h : (App.scrape_reviews asin env p).driverQuit =
      (App.scrape_reviews asin env p).driverAcquired := by
    simp only [App.scrape_reviews]
    repeat' split
    all_goals rfl
  intro ha
  rw [h, ha]

/-- Witness for C9 on a clean run that acquires a session. -/
theorem driver_quit_on_every_exit_witness :
    (App.scrape_reviews "B0CW1LJXKN"
      ⟨.ok "Google Chrome 120.0.6099.109", "120.0.6099.109", none, "", false⟩
      ⟨false, "Amazon.com", [], []⟩).driverQuit = true :=
  driver_quit_on_every_exit "B0CW1LJXKN"
    ⟨.ok "Google Chrome 120.0.6099.109", "120.0.6099.109", none, "", false⟩
    ⟨false, "Amazon.com", [], []⟩ (by decide)

/-- Counterexample to C2: the empty string is a submitted identifier that
does not match `^[A-Z0-9]{10}$`, yet the handler shows no validation
error at all — `if submit_button and asin:` skips the whole block because
an empty string is falsy. -/
theorem invalid_asin_empty_no_error :
    App.asin_pattern_match "" = false ∧
    App.handle_submit true "" = ⟨false, false⟩ := by decide

/-- C2 (amended): for every submitted identifier that fails the pattern,
`scrape_reviews` is never invoked (zero network calls); the user-facing
validation error is additionally reported whenever the identifier is
non-empty (an empty submission is silently ignored). -/
theorem invalid_asin_short_circuit : ∀ (submitButton : Bool) (asin : String),
    App.asin_pattern_match asin = false →
    (App.handle_submit submitButton asin).scrapeInvoked = false ∧
    (submitButton = true → asin ≠ "" →
      (App.handle_submit submitButton asin).validationErrorShown = true) := by
  intro sb asin h
  unfold App.handle_submit
  by_cases hsb : (sb && !(asin == "")) = true
  · rw [if_pos hsb, if_pos (by simp [h])]
    exact ⟨rfl, fun _ _ => rfl⟩
  · rw [if_neg hsb]
    refine ⟨rfl, fun h1 h2 => ?_⟩
    exact absurd (by simp [h1, h2]) hsb

/-- Witness for the amended C2 at a concrete lowercase identifier. -/
theorem invalid_asin_short_circuit_witness :
    (App.handle_submit true "b0cw1ljxkn").scrapeInvoked = false ∧
    (App.handle_submit true "b0cw1ljxkn").validationErrorShown = true := by
  have h := invalid_asin_short_circuit true "b0cw1ljxkn" (by decide)
  exact ⟨h.1, h.2 rfl (by decide)⟩

theorem analyze_sentiment_some (k : String) (r : App.ApiResponse) (c : String) :
    App.analyze_sentiment ⟨some k, some r⟩ c =
      if 400 ≤ r.status then "Neutral"
      else
        match r.chainText with
        | .error _ => "Neutral"
        | .ok s => App.pyStripStr s := rfl

/-- C5: on every internal failure — missing credentials, transport
exception, non-success HTTP status, malformed response —
`analyze_sentiment` returns `"Neutral"` (it never raises), and the
enrichment loop proceeds over every record. -/
theorem analyze_sentiment_failure_neutral :
    ∀ (env : App.SentimentEnv) (comment : String) (reviews : List App.Record),
    App.SentimentFailure env →
    App.analyze_sentiment env comment = "Neutral" ∧
    (App.add_sentiments env reviews).length = reviews.length ∧
    ∀ er ∈ App.add_sentiments env reviews, er.Sentiment = "Neutral" := by
  intro env comment reviews hf
  have hn : ∀ c : String, App.analyze_sentiment env c = "Neutral" := by
    intro c
    obtain ⟨key, resp⟩ := env
    match key, resp with
    | none, _ => rfl
    | some k, none => rfl
    | some k, some r =>
      rcases hf with h | h | ⟨r', hr', hcase⟩
      · exact absurd h (by simp)
      · exact absurd h (by simp)
      · have hrr : r = r' := Option.some.inj hr'
        subst hrr
        rw [analyze_sentiment_some]
        rcases hcase with hst | hch
        · rw [if_pos hst]
        · by_cases hst : 400 ≤ r.status
          · rw [if_pos hst]
          · rw [if_neg hst, hch]
  refine ⟨hn comment, ?_, ?_⟩
  · simp [App.add_sentiments]
  · intro er her
    simp only [App.add_sentiments, List.mem_map] at her
    obtain ⟨r, _, hr⟩ := her
    rw [← hr]
    exact hn r.Comment

/-- Witness for C5 at a concrete failing environment (missing API key). -/
theorem analyze_sentiment_failure_neutral_witness :
    App.analyze_sentiment ⟨none, none⟩ "great book" = "Neutral" :=
  (analyze_sentiment_failure_neutral ⟨none, none⟩ "great book" []
    (Or.inl rfl)).1

/-- Counterexample to C6: when the API call succeeds but its text is not
one of the three labels, `analyze_sentiment` returns that text verbatim
(stripped) — here `"Mixed"` — so the sentiment attached to a record is
not confined to Positive/Negative/Neutral. -/
theorem sentiment_label_escape :
    App.analyze_sentiment ⟨some "key", some ⟨200, .ok "Mixed"⟩⟩ "good book" =
      "Mixed" ∧
    ("Mixed" : String) ≠ "Positive" ∧ ("Mixed" : String) ≠ "Negative" ∧
    ("Mixed" : String) ≠ "Neutral" := by decide

/-- C6 (amended): `analyze_sentiment` returns `"Neutral"` on every
internal failure, and otherwise returns the whitespace-stripped text of
the API response — so its value lies in the three-label set exactly when
that stripped text does (or a failure occurred), the code never enforcing
the label set itself. -/
theorem sentiment_label_set : ∀ (env : App.SentimentEnv) (comment : String),
    App.analyze_sentiment env comment = "Neutral" ∨
    ∃ r t, env.response = some r ∧ r.chainText = .ok t ∧
      App.analyze_sentiment env comment = App.pyStripStr t := by
  intro env comment
  obtain ⟨key, resp⟩ := env
  match key, resp with
  | none, _ => exact .inl rfl
  | some k, none => exact .inl rfl
  | some k, some r =>
    by_cases hst : 400 ≤ r.status
    · left
      rw [analyze_sentiment_some, if_pos hst]
    · cases hch : r.chainText with
      | error u => left; rw [analyze_sentiment_some, if_neg hst, hch]
      | ok t =>
        right
        exact ⟨r, t, rfl, hch, by rw [analyze_sentiment_some, if_neg hst, hch]⟩

theorem captcha_ne_scrapeError (e : String) :
    App.captchaStr ≠ App.scrapeErrorStr e := by
  intro h
  have hd := congrArg String.data h
  unfold App.scrapeErrorStr at hd
  rw [String.data_append] at hd
  have h0 := congrArg List.head? hd
  have h1 : App.captchaStr.data.head? = some 'C' := rfl
  have h2 : ("Error during scraping: ".data ++ e.data).head? = some 'E' := rfl
  rw [h1, h2] at h0
  exact absurd h0 (by decide)

theorem captcha_ne_chromeCheckErr (e : String) :
    App.captchaStr ≠ App.chromeCheckErrStr e := by
  intro h
  have hd := congrArg String.data h
  unfold App.chromeCheckErrStr at hd
  rw [String.data_append, String.data_append] at hd
  have h0 := congrArg List.head? hd
  have h1 : App.captchaStr.data.head? = some 'C' := rfl
  have h2 : ("Error checking Chrome version: ".data ++ e.data ++
      ". Ensure Google Chrome is installed.".data).head? = some 'E' := rfl
  rw [h1, h2] at h0
  exact absurd h0 (by decide)

theorem scrape_captcha_eq (asin : String) (env : App.ScrapeEnv) (p : App.Page)
    (hok : ¬((App.get_chrome_version env.chromeResult).1 = none ∨
      (App.get_chrome_version env.chromeResult).1 = some ""))
    (h1 : env.failAt ≠ some .init) (h2 : env.failAt ≠ some .caps)
    (h3 : env.failAt ≠ some .nav) (h4 : env.failAt ≠ some .guard)
    (hcap : p.hasCaptcha = true) :
    App.scrape_reviews asin env p =
      ⟨[], (App.get_chrome_version env.chromeResult).2 ++
        [App.Msg.write App.initializingStr] ++
        [App.Msg.write (App.driverVersionStr env.driverVersion),
         App.Msg.write (App.scrapingUrlStr asin)] ++
        (if env.waitFails = true then [App.Msg.warn App.waitWarnStr] else []) ++
        [App.Msg.error App.captchaStr], true, true⟩ := by
  simp only [App.scrape_reviews]
  rw [if_neg hok, if_neg h1, if_neg h2, if_neg h3, if_neg h4, if_pos hcap]

theorem captcha_not_in_chrome_msgs (r : Except String String) :
    App.Msg.error App.captchaStr ∉ (App.get_chrome_version r).2 := by
  cases r with
  | error e =>
    simp only [App.get_chrome_version, List.mem_singleton]
    intro h
    exact captcha_ne_chromeCheckErr e (App.Msg.error.inj h)
  | ok v => simp [App.get_chrome_version]

theorem error_not_mem_ite_warn (s w : String) (c : Prop) [Decidable c] :
    App.Msg.error s ∉ (if c then [App.Msg.warn w] else []) := by
  split <;> simp

theorem error_not_mem_ite_warn_success (s w : String) (n : Nat) (c : Prop)
    [Decidable c] :
    App.Msg.error s ∉
      (if c then [App.Msg.warn w] else [App.Msg.success (App.foundStr n)]) := by
  split <;> simp

theorem captcha_msg_source (asin : String) (env : App.ScrapeEnv) (q : App.Page)
    (hq : q.hasCaptcha = false) :
    App.Msg.error App.captchaStr ∉ (App.scrape_reviews asin env q).messages := by
  have hchrome := captcha_not_in_chrome_msgs env.chromeResult
  have herr : ∀ e, App.captchaStr ≠ App.scrapeErrorStr e := captcha_ne_scrapeError
  have hmiss : App.captchaStr ≠ App.chromeMissingStr := by decide
  by_cases hok : ((App.get_chrome_version env.chromeResult).1 = none ∨
      (App.get_chrome_version env.chromeResult).1 = some "")
  · simp only [App.scrape_reviews]
    rw [if_pos hok]
    simp [List.mem_append, hchrome, App.Msg.error.injEq, hmiss]
  · cases hfa : env.failAt with
    | none =>
      simp only [App.scrape_reviews, hfa]
      rw [if_neg hok]
      simp [List.mem_append, hchrome, App.Msg.error.injEq, hq,
        error_not_mem_ite_warn, error_not_mem_ite_warn_success]
    | some s =>
      cases s <;>
      · simp only [App.scrape_reviews, hfa]
        rw [if_neg hok]
        simp [List.mem_append, hchrome, App.Msg.error.injEq, hq, herr, hmiss,
          error_not_mem_ite_warn, error_not_mem_ite_warn_success]

/-- C4: when the fetched document contains the anti-bot marker
`form[action="/errors/validateCaptcha"]`, `scrape_reviews` reports the
CAPTCHA error — a message no non-blocked run ever emits — returns zero
records, and its outcome is independent of the document's review
fragments and title (no extraction is attempted). -/
theorem captcha_blocks_extraction :
    ∀ (asin : String) (env : App.ScrapeEnv) (p : App.Page),
    ¬((App.get_chrome_version env.chromeResult).1 = none ∨
      (App.get_chrome_version env.chromeResult).1 = some "") →
    env.failAt ≠ some .init → env.failAt ≠ some .caps →
    env.failAt ≠ some .nav → env.failAt ≠ some .guard →
    p.hasCaptcha = true →
    (App.scrape_reviews asin env p).records = [] ∧
    App.Msg.error App.captchaStr ∈ (App.scrape_reviews asin env p).messages ∧
    (∀ q : App.Page, q.hasCaptcha = true →
      App.scrape_reviews asin env q = App.scrape_reviews asin env p) ∧
    (∀ (env' : App.ScrapeEnv) (q : App.Page), q.hasCaptcha = false →
      App.Msg.error App.captchaStr ∉ (App.scrape_reviews asin env' q).messages) := by
  intro asin env p hok h1 h2 h3 h4 hcap
  refine ⟨?_, ?_, ?_, ?_⟩
  · rw [scrape_captcha_eq asin env p hok h1 h2 h3 h4 hcap]
  · rw [scrape_captcha_eq asin env p hok h1 h2 h3 h4 hcap]
    simp
  · intro q hq
    rw [scrape_captcha_eq asin env p hok h1 h2 h3 h4 hcap,
      scrape_captcha_eq asin env q hok h1 h2 h3 h4 hq]
  · intro env' q hq
    exact captcha_msg_source asin env' q hq

/-- Witness for C4 on a concrete blocked page carrying review fragments
that are never extracted. -/
theorem captcha_blocks_extraction_witness :
    (App.scrape_reviews "B0CW1LJXKN"
      ⟨.ok "Google Chrome 120", "120.0", none, "", false⟩
      ⟨true, "Robot Check", [⟨some "A", some "good", some "5.0", some "May 1"⟩],
        []⟩).records = [] ∧
    App.Msg.error App.captchaStr ∈
      (App.scrape_reviews "B0CW1LJXKN"
        ⟨.ok "Google Chrome 120", "120.0", none, "", false⟩
        ⟨true, "Robot Check", [⟨some "A", some "good", some "5.0", some "May 1"⟩],
          []⟩).messages := by
  have h := captcha_blocks_extraction "B0CW1LJXKN"
    ⟨.ok "Google Chrome 120", "120.0", none, "", false⟩
    ⟨true, "Robot Check", [⟨some "A", some "good", some "5.0", some "May 1"⟩], []⟩
    (by decide) (by decide) (by decide) (by decide) (by decide) rfl
  exact ⟨h.1, h.2.1⟩

theorem scrape_clean_eq (asin : String) (env : App.ScrapeEnv) (p : App.Page)
    (hok : ¬((App.get_chrome_version env.chromeResult).1 = none ∨
      (App.get_chrome_version env.chromeResult).1 = some ""))
    (hfail : env.failAt = none) (hcap : p.hasCaptcha = false) :
    App.scrape_reviews asin env p =
      ⟨App.scrape_extract asin (App.find_review_elements p),
        (App.get_chrome_version env.chromeResult).2 ++
          [App.Msg.write App.initializingStr] ++
          [App.Msg.write (App.driverVersionStr env.driverVersion),
           App.Msg.write (App.scrapingUrlStr asin)] ++
          (if env.waitFails = true then [App.Msg.warn App.waitWarnStr] else []) ++
          [App.Msg.write (App.titleStr p.title)] ++
          (if p.primaryFrags.isEmpty then [App.Msg.warn App.primaryEmptyStr]
           else []) ++
          (if (App.scrape_extract asin (App.find_review_elements p)).isEmpty
           then [App.Msg.warn App.noValidStr]
           else [App.Msg.success (App.foundStr
             (App.scrape_extract asin (App.find_review_elements p)).length)]),
        true, true⟩ := by
  simp only [App.scrape_reviews, hfail, hcap]
  rw [if_neg hok]
  simp

theorem success_not_in_chrome_msgs (r : Except String String) (s : String) :
    App.Msg.success s ∉ (App.get_chrome_version r).2 := by
  cases r <;> simp [App.get_chrome_version]

theorem warn_not_in_chrome_msgs (r : Except String String) (w : String) :
    App.Msg.warn w ∉ (App.get_chrome_version r).2 := by
  cases r <;> simp [App.get_chrome_version]

theorem mem_ite_warn_iff (w w' : String) (c : Prop) [Decidable c] :
    (App.Msg.warn w ∈ (if c then [App.Msg.warn w'] else [])) ↔ (c ∧ w = w') := by
  split <;> simp_all [App.Msg.warn.injEq]

theorem mem_ite_warn_success_iff (w w' : String) (n : Nat) (c : Prop)
    [Decidable c] :
    (App.Msg.warn w ∈
      (if c then [App.Msg.warn w'] else [App.Msg.success (App.foundStr n)])) ↔
    (c ∧ w = w') := by
  split <;> simp_all [App.Msg.warn.injEq]

theorem success_mem_ite_iff (s w : String) (n : Nat) (c : Prop) [Decidable c] :
    (App.Msg.success s ∈
      (if c then [App.Msg.warn w] else [App.Msg.success (App.foundStr n)])) ↔
    (¬c ∧ s = App.foundStr n) := by
  split <;> simp_all [App.Msg.success.injEq]

theorem clean_success_iff (asin : String) (env : App.ScrapeEnv) (p : App.Page)
    (hok : ¬((App.get_chrome_version env.chromeResult).1 = none ∨
      (App.get_chrome_version env.chromeResult).1 = some ""))
    (hfail : env.failAt = none) (hcap : p.hasCaptcha = false) :
    (∃ s, App.Msg.success s ∈ (App.scrape_reviews asin env p).messages) ↔
    (App.scrape_reviews asin env p).records ≠ [] := by
  rw [scrape_clean_eq asin env p hok hfail hcap]
  have hc := success_not_in_chrome_msgs env.chromeResult
  simp only [List.mem_append, List.mem_cons, List.mem_singleton,
    success_mem_ite_iff]
  constructor
  · rintro ⟨s, hs⟩
    rcases hs with ((((((h | h) | h) | h) | h) | h) | h)
    · exact absurd h (hc s)
    · simp at h
    · rcases h with h | h <;> simp at h
    · revert h
      split <;> simp
    · simp at h
    · revert h
      split <;> simp
    · intro hnil
      rw [hnil] at h
      simp at h
  · intro hne
    refine ⟨App.foundStr
      (App.scrape_extract asin (App.find_review_elements p)).length, ?_⟩
    refine Or.inr ⟨by simp [List.isEmpty_iff, hne], rfl⟩

theorem clean_primary_warn_iff (asin : String) (env : App.ScrapeEnv)
    (p : App.Page)
    (hok : ¬((App.get_chrome_version env.chromeResult).1 = none ∨
      (App.get_chrome_version env.chromeResult).1 = some ""))
    (hfail : env.failAt = none) (hcap : p.hasCaptcha = false) :
    (App.Msg.warn App.primaryEmptyStr ∈
      (App.scrape_reviews asin env p).messages) ↔
    p.primaryFrags = [] := by
  rw [scrape_clean_eq asin env p hok hfail hcap]
  have hc := warn_not_in_chrome_msgs env.chromeResult
  have hne1 : App.primaryEmptyStr ≠ App.waitWarnStr := by decide
  have hne2 : App.primaryEmptyStr ≠ App.noValidStr := by decide
  simp only [List.mem_append, List.mem_cons, List.mem_singleton,
    mem_ite_warn_iff, mem_ite_warn_success_iff]
  constructor
  · rintro ((((((h | h) | h) | h) | h) | h) | h)
    · exact absurd h (hc App.primaryEmptyStr)
    · simp at h
    · rcases h with h | h <;> simp at h
    · exact absurd h.2 hne1
    · simp at h
    · exact List.isEmpty_iff.mp h.1
    · exact absurd h.2 hne2
  · intro hnil
    exact Or.inl (Or.inr ⟨by simp [hnil], True.intro⟩)

def cleanEnv : App.ScrapeEnv :=
  ⟨.ok "Google Chrome 120.0.6099.109", "120.0.6099.109", none, "", false⟩

def pageNoFrags : App.Page := ⟨false, "Amazon.com: Books", [], []⟩

def pageInvalidFallback : App.Page :=
  ⟨false, "Amazon.com: Books", [], [⟨none, none, none, none⟩]⟩

/-- Counterexample to C8: a document whose selector tiers find no fragment
at all and a document whose fallback tier finds one fragment that fails
the validity gate produce exactly the same diagnostic messages, so those
two terminal states are not distinguishable by the caller. -/
theorem terminal_states_collision :
    App.find_review_elements pageNoFrags = [] ∧
    App.find_review_elements pageInvalidFallback ≠ [] ∧
    (App.scrape_reviews "B0CW1LJXKN" cleanEnv pageNoFrags).records = [] ∧
    (App.scrape_reviews "B0CW1LJXKN" cleanEnv pageInvalidFallback).records = [] ∧
    (App.scrape_reviews "B0CW1LJXKN" cleanEnv pageNoFrags).messages =
      (App.scrape_reviews "B0CW1LJXKN" cleanEnv pageInvalidFallback).messages := by
  decide

/-- C8 (amended): of the three terminal states, a run that found records
is always distinguishable from the two empty outcomes by its diagnostics,
and the zero-fragments state is distinguishable from the none-valid state
whenever the invalid fragments came from the primary tier; when they came
from the fallback tier the two empty states emit identical diagnostics. -/
theorem terminal_states_distinguishable :
    ∀ (asin : String) (env : App.ScrapeEnv) (p q : App.Page),
    ¬((App.get_chrome_version env.chromeResult).1 = none ∨
      (App.get_chrome_version env.chromeResult).1 = some "") →
    env.failAt = none → p.hasCaptcha = false → q.hasCaptcha = false →
    ((App.scrape_reviews asin env p).records ≠ [] →
      (App.scrape_reviews asin env q).records = [] →
      (App.scrape_reviews asin env p).messages ≠
        (App.scrape_reviews asin env q).messages) ∧
    (p.primaryFrags ≠ [] → (App.scrape_reviews asin env p).records = [] →
      q.primaryFrags = [] → q.fallbackFrags = [] →
      (App.scrape_reviews asin env p).messages ≠
        (App.scrape_reviews asin env q).messages) := by
  intro asin env p q hok hfail hp hq
  constructor
  · intro hrp hrq heq
    obtain ⟨s, hs⟩ := (clean_success_iff asin env p hok hfail hp).mpr hrp
    rw [heq] at hs
    exact absurd ((clean_success_iff asin env q hok hfail hq).mp ⟨s, hs⟩)
      (by simp [hrq])
  · intro hpf hrp hqf _ heq
    have h1 := (clean_primary_warn_iff asin env q hok hfail hq).mpr hqf
    rw [← heq] at h1
    exact absurd ((clean_primary_warn_iff asin env p hok hfail hp).mp h1) hpf

/-- Witness for the amended C8: a run that found one record and a run that
found no fragments produce different diagnostics. -/
theorem terminal_states_distinguishable_witness :
    (App.scrape_reviews "B0CW1LJXKN" cleanEnv
      ⟨false, "Amazon.com: Books", [⟨none, some "good read", none, none⟩],
        []⟩).messages ≠
    (App.scrape_reviews "B0CW1LJXKN" cleanEnv pageNoFrags).messages :=
  (terminal_states_distinguishable "B0CW1LJXKN" cleanEnv
    ⟨false, "Amazon.com: Books", [⟨none, some "good read", none, none⟩], []⟩
    pageNoFrags (by decide) rfl rfl rfl).1 (by decide) (by decide)
